import Mathlib

/-!
# Guitar Hero state engine: shallow embedding

A Lean embedding of the rhythm-game state engine from `src/state.ts`,
`src/observable.ts`, `src/util.ts` and the type/constant declarations
bundled with `src/main.ts` (the `types` module).

Modelling conventions:
* JavaScript numbers are embedded as exact rationals (`ℚ`); the literal
  `0.2` is the rational `1/5` and `Math.round` is `⌊x + 1/2⌋`
  (round half toward positive infinity, as in JS).
* The JavaScript `%` operator on integers is the truncated remainder,
  embedded as `Int.tmod`.
* `ReadonlyArray` is `List`; object spread updates are structure updates.
-/

namespace GuitarHero

/-! Game constants from the `Constants` object in the types module. -/
namespace Constants

def TICK_RATE_MS : ℚ := 16

def NOTE_FALL_TIME : ℚ := 1800

def HIT_WINDOW : ℚ := 30

def HIT_LINE_Y : ℚ := 350

def SCORE_INCREMENT : ℚ := 1

def SCORE_DECREMENT : ℚ := 1

end Constants

/-- `NOTE_VELOCITY = HIT_LINE_Y / (NOTE_FALL_TIME / TICK_RATE_MS)`:
per-tick downward travel of a note. -/
def NOTE_VELOCITY : ℚ :=
  Constants.HIT_LINE_Y / (Constants.NOTE_FALL_TIME / Constants.TICK_RATE_MS)

/-- The four valid input keys (the `Key` union type). -/
inductive Key where
  | KeyH : Key
  | KeyJ : Key
  | KeyK : Key
  | KeyL : Key
  deriving DecidableEq, Repr

/-- `KEY_BINDINGS` maps keys to lane columns. -/
def KEY_BINDINGS : Key → ℕ
  | .KeyH => 0
  | .KeyJ => 1
  | .KeyK => 2
  | .KeyL => 3

/-- The `Note` record (`end` is renamed `endTime`; `end` is reserved in Lean). -/
structure Note where
  id : String
  user_played : Bool
  column : ℕ
  y : ℚ
  instrumentName : String
  velocity : ℚ
  pitch : ℕ
  start : ℚ
  endTime : ℚ
  hit : Bool
  deriving DecidableEq, Repr

/-- The `State` record. -/
structure State where
  notes : List Note
  score : ℚ
  missedNotes : ℕ
  gameEnd : Bool
  multiplier : ℚ
  consecutiveHits : ℕ
  shouldPlayRandomNote : Bool
  deriving DecidableEq, Repr

/-- `initialState` from the types module. -/
def initialState : State :=
  { notes := []
    score := 0
    missedNotes := 0
    gameEnd := false
    multiplier := 1
    consecutiveHits := 0
    shouldPlayRandomNote := false }

/-- JavaScript `Math.round`: round half toward positive infinity. -/
def jsRound (x : ℚ) : ℚ := ((⌊x + 1/2⌋ : ℤ) : ℚ)

/-- JavaScript `Math.abs`. -/
def jsAbs (x : ℚ) : ℚ := if x < 0 then -x else x

/-- `jsAbs` agrees with the absolute value on `ℚ`. -/
theorem jsAbs_eq_abs (x : ℚ) : jsAbs x = |x| := by
  unfold jsAbs
  split
  · exact (abs_of_neg (by assumption)).symm
  · exact (abs_of_nonneg (by linarith [lt_or_ge x 0])).symm

/-! `PlayRandomNote.apply` returns a copy of the state (`{...s}`). -/
namespace PlayRandomNote

def apply (s : State) : State := s

end PlayRandomNote

/-! `AddNotes.apply`: end the game on the sentinel, otherwise append. -/
namespace AddNotes

def apply (note : Note) (s : State) : State :=
  if note.id = "gameEndNote"
  then { s with gameEnd := true }
  else { s with notes := s.notes ++ [note] }

end AddNotes

namespace KeyPress

/-- `KeyPress.isNoteHittable`: matching column, within the hit window,
and not already hit. -/
def isNoteHittable (key : Key) (note : Note) : Bool :=
  (note.column == KEY_BINDINGS key) &&
  (decide (jsAbs (note.y - Constants.HIT_LINE_Y) ≤ Constants.HIT_WINDOW)) &&
  (!note.hit)

/-- `KeyPress.updateNote`: pin a hittable note past the hit line and mark it hit. -/
def updateNote (key : Key) (note : Note) : Note :=
  if isNoteHittable key note
  then { note with y := Constants.HIT_LINE_Y + NOTE_VELOCITY, hit := true }
  else note

/-- `KeyPress.calculateScore`. -/
def calculateScore (s : State) (notesHit : ℕ) : ℚ :=
  let baseScore :=
    if notesHit = 0
    then max 0 (s.score - Constants.SCORE_DECREMENT)
    else s.score + (notesHit : ℚ) * s.multiplier * Constants.SCORE_INCREMENT
  jsRound baseScore

/-- `KeyPress.calculateMultiplier`. -/
def calculateMultiplier (consecutiveHits : ℕ) (currentMultiplier : ℚ) : ℚ :=
  if consecutiveHits % 10 = 0
  then currentMultiplier + 1/5
  else currentMultiplier

/-- `KeyPress.apply`. -/
def apply (key : Key) (s : State) : State :=
  let notesHit := (s.notes.filter (isNoteHittable key)).length
  let updatedNotes := s.notes.map (updateNote key)
  let newConsecutiveHits := if notesHit > 0 then s.consecutiveHits + 1 else 0
  { s with
    notes := updatedNotes
    score := calculateScore s notesHit
    shouldPlayRandomNote := notesHit == 0
    consecutiveHits := newConsecutiveHits
    multiplier :=
      if notesHit > 0
      then calculateMultiplier newConsecutiveHits s.multiplier
      else 1 }

end KeyPress

namespace Tick

/-- `Tick.isMissedNote`: past the hit line and never hit. -/
def isMissedNote (note : Note) : Bool :=
  (decide (note.y > Constants.HIT_LINE_Y)) && (!note.hit)

/-- `Tick.updateNotePosition`: advance a note by one tick of travel. -/
def updateNotePosition (note : Note) : Note :=
  { note with y := note.y + NOTE_VELOCITY }

/-- `Tick.isNoteInPlayArea`. -/
def isNoteInPlayArea (note : Note) : Bool :=
  decide (note.y ≤ Constants.HIT_LINE_Y + NOTE_VELOCITY)

/-- The three fields produced by `Tick.updateGameStats`
(`Pick<State, "consecutiveHits" | "multiplier" | "missedNotes">`). -/
structure GameStats where
  consecutiveHits : ℕ
  multiplier : ℚ
  missedNotes : ℕ
  deriving DecidableEq, Repr

/-- `Tick.updateGameStats`. -/
def updateGameStats (s : State) (missedCount : ℕ) : GameStats :=
  { consecutiveHits := if missedCount > 0 then 0 else s.consecutiveHits
    multiplier := if missedCount > 0 then 1 else s.multiplier
    missedNotes := s.missedNotes + missedCount }

/-- `Tick.apply`. -/
def apply (s : State) : State :=
  let missedNotesCount := (s.notes.filter isMissedNote).length
  let updatedNotes := (s.notes.map updateNotePosition).filter isNoteInPlayArea
  let stats := updateGameStats s missedNotesCount
  { s with
    notes := updatedNotes
    consecutiveHits := stats.consecutiveHits
    multiplier := stats.multiplier
    missedNotes := stats.missedNotes
    shouldPlayRandomNote := false }

end Tick

/-- The closed set of actions fed to the reducer. -/
inductive Action where
  | tick : Action
  | addNotes (note : Note) : Action
  | keyPress (key : Key) : Action
  | playRandomNote : Action
  deriving DecidableEq, Repr

/-- Dispatch of `action.apply(s)` over the action variants. -/
def Action.apply : Action → State → State
  | .tick, s => Tick.apply s
  | .addNotes note, s => AddNotes.apply note s
  | .keyPress key, s => KeyPress.apply key s
  | .playRandomNote, s => PlayRandomNote.apply s

/-- `reduceState(s, action) = action.apply(s)`. -/
def reduceState (s : State) (action : Action) : State := action.apply s

/-- States reachable from `initialState` by any action sequence. -/
inductive Reachable : State → Prop where
  | init : Reachable initialState
  | step (s : State) (a : Action) : Reachable s → Reachable (reduceState s a)

/-! The LCG random number generator of `util.ts`. -/
namespace RNG

def m : ℤ := 0x80000000

def a : ℤ := 1103515245

def c : ℤ := 12345

/-- `RNG.hash`: `(a * seed + c) % m` with the JavaScript truncated remainder. -/
def hash (seed : ℤ) : ℤ := Int.tmod (a * seed + c) m

/-- `RNG.scale`: `(2 * hash) / (m - 1) - 1`. -/
def scale (hash : ℤ) : ℚ := 2 * (hash : ℚ) / ((m : ℚ) - 1) - 1

end RNG

/-- The sentinel note built by `createGameEndNote$` in `observable.ts`. -/
def gameEndNote : Note :=
  { id := "gameEndNote"
    user_played := true
    column := 0
    y := 0
    instrumentName := ""
    velocity := 0
    pitch := 0
    start := 0
    endTime := 0
    hit := false }

/-- A chart row with its six CSV fields already split
(CSV text syntax is out of scope; numeric fields are given parsed). -/
structure ChartRow where
  userPlayed : String
  instrument : String
  velocity : ℚ
  pitch : ℕ
  start : ℚ
  endTime : ℚ
  deriving DecidableEq, Repr

/-- `csvLineToNote`: build a note from a row and its index
(`COLORS.length = 4`). -/
def csvLineToNote (row : ChartRow) (index : ℕ) : Note :=
  { id := toString index
    user_played := row.userPlayed.toLower == "true"
    column := row.pitch % 4
    y := 0
    instrumentName := row.instrument
    velocity := row.velocity / 127
    pitch := row.pitch
    start := row.start
    endTime := row.endTime
    hit := false }

/-- `parseCSV` as the ordered list of emitted notes: one note per data row
(in row order, ids = row indices) followed by the sentinel
(`concat(notes$, createGameEndNote$())`). -/
def parseCSV (rows : List ChartRow) : List Note :=
  (rows.mapIdx fun index row => csvLineToNote row index) ++ [gameEndNote]

/-- The `notesHit` count of `KeyPress.apply`: hittable notes for a key. -/
def hittableCount (key : Key) (s : State) : ℕ :=
  (s.notes.filter (KeyPress.isNoteHittable key)).length

/-- The `missedNotesCount` of `Tick.apply`: unhit notes beyond the hit line. -/
def missedCount (s : State) : ℕ :=
  (s.notes.filter Tick.isMissedNote).length

/-- C1: `Tick.apply` adds the number of unhit notes beyond the hit line to
`missedNotes`, and whenever that number is positive the resulting state has
`multiplier = 1` and `consecutiveHits = 0`, whatever their prior values. -/
theorem tick_missed_accounting (s : State) :
    (Tick.apply s).missedNotes = s.missedNotes + missedCount s ∧
    (0 < missedCount s →
      (Tick.apply s).multiplier = 1 ∧ (Tick.apply s).consecutiveHits = 0) := by
  refine ⟨rfl, fun h => ?_⟩
  unfold missedCount at h
  constructor <;> simp [Tick.apply, Tick.updateGameStats, h]

/-- A note sitting one unit past the hit line, never hit. -/
def missedNoteExample : Note := { gameEndNote with id := "m0", y := 351 }

/-- A state with one missed note and a running combo. -/
def missState : State :=
  { initialState with notes := [missedNoteExample], multiplier := 3, consecutiveHits := 7 }

/-- Witness for C1 at a state with one missed note. -/
theorem tick_missed_accounting_witness :
    (Tick.apply missState).missedNotes = missState.missedNotes + missedCount missState ∧
    (Tick.apply missState).multiplier = 1 ∧ (Tick.apply missState).consecutiveHits = 0 :=
  ⟨(tick_missed_accounting missState).1,
   ((tick_missed_accounting missState).2 (by decide)).1,
   ((tick_missed_accounting missState).2 (by decide)).2⟩

/-- C9: once `gameEnd` is true, applying any action leaves it true. -/
theorem gameEnd_persistent (a : Action) (s : State) (h : s.gameEnd = true) :
    (reduceState s a).gameEnd = true := by
  cases a with
  | tick => exact h
  | addNotes note =>
      simp only [reduceState, Action.apply, AddNotes.apply]
      split <;> simp [h]
  | keyPress key => exact h
  | playRandomNote => exact h

/-- A state whose game has ended. -/
def endedState : State := { initialState with gameEnd := true }

/-- Witness for C9 at a concrete ended state under a `Tick`. -/
theorem gameEnd_persistent_witness :
    (reduceState endedState Action.tick).gameEnd = true :=
  gameEnd_persistent Action.tick endedState rfl

/-- C5: a note whose `hit` flag is true is excluded from the hittable
predicate, is left entirely unchanged (and kept) by `KeyPress.apply`, and no
action reverts the flag: its `Tick` image keeps `hit = true` (and stays
listed while in the play area), and `AddNotes` and `PlayRandomNote` keep all
stored notes as they are. -/
theorem hit_flag_permanent :
    (∀ key note, note.hit = true → KeyPress.isNoteHittable key note = false) ∧
    (∀ key note, note.hit = true → KeyPress.updateNote key note = note) ∧
    (∀ key s note, note ∈ s.notes → note.hit = true →
      note ∈ (KeyPress.apply key s).notes) ∧
    (∀ s note, note ∈ s.notes → note.hit = true →
      (Tick.updateNotePosition note).hit = true ∧
      (Tick.isNoteInPlayArea (Tick.updateNotePosition note) = true →
        Tick.updateNotePosition note ∈ (Tick.apply s).notes)) ∧
    (∀ n s note, note ∈ s.notes → note ∈ (AddNotes.apply n s).notes) ∧
    (∀ s note, note ∈ s.notes → note ∈ (PlayRandomNote.apply s).notes) := by
  have h1 : ∀ key note, note.hit = true → KeyPress.isNoteHittable key note = false := by
    intro key note h
    simp [KeyPress.isNoteHittable, h]
  have h2 : ∀ key note, note.hit = true → KeyPress.updateNote key note = note := by
    intro key note h
    simp [KeyPress.updateNote, h1 key note h]
  refine ⟨h1, h2, ?_, ?_, ?_, ?_⟩
  · intro key s note hmem h
    simp only [KeyPress.apply, List.mem_map]
    exact ⟨note, hmem, h2 key note h⟩
  · intro s note hmem h
    refine ⟨h, fun harea => ?_⟩
    simp only [Tick.apply]
    exact List.mem_filter.mpr ⟨List.mem_map_of_mem _ hmem, harea⟩
  · intro n s note hmem
    simp only [AddNotes.apply]
    split
    · exact hmem
    · exact List.mem_append_left _ hmem
  · intro s note hmem
    exact hmem

/-- A note at the hit line already marked hit. -/
def hitNoteExample : Note := { gameEndNote with id := "h0", y := 350, hit := true }

/-- A state holding one already-hit note. -/
def hitState : State := { initialState with notes := [hitNoteExample] }

/-- Witness for C5 at a concrete hit note. -/
theorem hit_flag_permanent_witness :
    KeyPress.isNoteHittable Key.KeyH hitNoteExample = false ∧
    KeyPress.updateNote Key.KeyH hitNoteExample = hitNoteExample ∧
    hitNoteExample ∈ (KeyPress.apply Key.KeyH hitState).notes ∧
    (Tick.updateNotePosition hitNoteExample).hit = true :=
  ⟨hit_flag_permanent.1 Key.KeyH hitNoteExample rfl,
   hit_flag_permanent.2.1 Key.KeyH hitNoteExample rfl,
   hit_flag_permanent.2.2.1 Key.KeyH hitState hitNoteExample (by decide) rfl,
   (hit_flag_permanent.2.2.2.1 hitState hitNoteExample (by decide) rfl).1⟩

/-- C6: a hittable note is rewritten by a key press with `hit = true` and
`y = HIT_LINE_Y + NOTE_VELOCITY`, is still in the note list right after the
key press, and its position-updated image is removed by the next `Tick`. -/
theorem hittable_note_pinned_then_removed (key : Key) (s : State) (note : Note)
    (hmem : note ∈ s.notes) (hh : KeyPress.isNoteHittable key note = true) :
    (KeyPress.updateNote key note).hit = true ∧
    (KeyPress.updateNote key note).y = Constants.HIT_LINE_Y + NOTE_VELOCITY ∧
    KeyPress.updateNote key note ∈ (KeyPress.apply key s).notes ∧
    Tick.updateNotePosition (KeyPress.updateNote key note)
      ∉ (Tick.apply (KeyPress.apply key s)).notes := by
  have hupd : KeyPress.updateNote key note
      = { note with y := Constants.HIT_LINE_Y + NOTE_VELOCITY, hit := true } := by
    simp [KeyPress.updateNote, hh]
  refine ⟨by rw [hupd], by rw [hupd], ?_, ?_⟩
  · simp only [KeyPress.apply, List.mem_map]
    exact ⟨note, hmem, rfl⟩
  · intro hmem'
    have harea := (List.mem_filter.mp hmem').2
    rw [hupd] at harea
    simp only [Tick.isNoteInPlayArea, Tick.updateNotePosition, decide_eq_true_eq] at harea
    have hv : 0 < NOTE_VELOCITY := by norm_num [NOTE_VELOCITY, Constants.HIT_LINE_Y,
      Constants.NOTE_FALL_TIME, Constants.TICK_RATE_MS]
    linarith

/-- An unhit note exactly at the hit line on column 0. -/
def hittableNoteExample : Note := { gameEndNote with id := "k0", y := 350 }

/-- A state with one hittable note on column 0. -/
def hittableState : State := { initialState with notes := [hittableNoteExample] }

unseal Rat.add Rat.sub Rat.mul Rat.inv in
/-- Witness for C6 at a concrete hittable note. -/
theorem hittable_note_pinned_then_removed_witness :
    (KeyPress.updateNote Key.KeyH hittableNoteExample).hit = true ∧
    (KeyPress.updateNote Key.KeyH hittableNoteExample).y
      = Constants.HIT_LINE_Y + NOTE_VELOCITY ∧
    KeyPress.updateNote Key.KeyH hittableNoteExample
      ∈ (KeyPress.apply Key.KeyH hittableState).notes ∧
    Tick.updateNotePosition (KeyPress.updateNote Key.KeyH hittableNoteExample)
      ∉ (Tick.apply (KeyPress.apply Key.KeyH hittableState)).notes :=
  hittable_note_pinned_then_removed Key.KeyH hittableState hittableNoteExample
    (by decide) (by decide)

/-- C10: a note that a `Tick` counts as missed (judged on the pre-tick state)
has its position-updated image excluded from the resulting note list, so it
can contribute to `missedNotes` in at most one tick. -/
theorem missed_note_removed_next_tick (s : State) (note : Note)
    (_hmem : note ∈ s.notes) (hmiss : Tick.isMissedNote note = true) :
    Tick.updateNotePosition note ∉ (Tick.apply s).notes := by
  intro hmem'
  have harea := (List.mem_filter.mp hmem').2
  simp only [Tick.isNoteInPlayArea, Tick.updateNotePosition, decide_eq_true_eq] at harea
  simp only [Tick.isMissedNote, Bool.and_eq_true, decide_eq_true_eq] at hmiss
  linarith [hmiss.1]

/-- Witness for C10 at a concrete missed note. -/
theorem missed_note_removed_next_tick_witness :
    Tick.updateNotePosition missedNoteExample ∉ (Tick.apply missState).notes :=
  missed_note_removed_next_tick missState missedNoteExample (by decide) (by decide)

unseal Rat.add Rat.sub Rat.mul Rat.inv in
/-- C8 counterexample: at the integer seed `-1` the scaled hash lies strictly
below `-1`, because the JavaScript `%` returns a negative remainder for a
negative dividend; so `scale (hash seed)` is not in `[-1, 1]` for every
integer seed. -/
theorem rng_scale_out_of_range_at_neg_seed :
    RNG.scale (RNG.hash (-1)) < -1 := by decide

/-- C8 (amended): for every nonnegative integer seed, `hash` agrees with the
mathematical `(1103515245 * seed + 12345) mod 2^31` and `scale (hash seed)`
lies in the closed interval `[-1, 1]`. -/
theorem rng_hash_scale_in_range (seed : ℤ) (hseed : 0 ≤ seed) :
    RNG.hash seed = (1103515245 * seed + 12345) % (2 ^ 31) ∧
    -1 ≤ RNG.scale (RNG.hash seed) ∧ RNG.scale (RNG.hash seed) ≤ 1 := by
  have ha : RNG.a = 1103515245 := rfl
  have hc : RNG.c = 12345 := rfl
  have hm : RNG.m = 2 ^ 31 := by decide
  have harg : 0 ≤ RNG.a * seed + RNG.c := by
    have : 0 ≤ RNG.a * seed := mul_nonneg (by decide) hseed
    omega
  have hhash : RNG.hash seed = (RNG.a * seed + RNG.c) % RNG.m := by
    unfold RNG.hash
    exact Int.tmod_eq_emod harg (by decide)
  have hlo : 0 ≤ RNG.hash seed := by
    rw [hhash]
    exact Int.emod_nonneg _ (by decide)
  have hhi : RNG.hash seed ≤ RNG.m - 1 := by
    have := Int.emod_lt_of_pos (RNG.a * seed + RNG.c) (show (0:ℤ) < RNG.m by decide)
    rw [hhash]
    omega
  refine ⟨by rw [hhash, ha, hc, hm], ?_, ?_⟩
  · unfold RNG.scale
    have hden : (0:ℚ) < (RNG.m : ℚ) - 1 := by norm_num [RNG.m]
    have hnum : (0:ℚ) ≤ 2 * (RNG.hash seed : ℚ) := by
      have : (0:ℚ) ≤ (RNG.hash seed : ℚ) := by exact_mod_cast hlo
      linarith
    have := div_nonneg hnum (le_of_lt hden)
    linarith
  · unfold RNG.scale
    have hden : (0:ℚ) < (RNG.m : ℚ) - 1 := by norm_num [RNG.m]
    have hcast : (RNG.hash seed : ℚ) ≤ (RNG.m : ℚ) - 1 := by
      have : (RNG.hash seed : ℚ) ≤ ((RNG.m - 1 : ℤ) : ℚ) := by exact_mod_cast hhi
      push_cast at this
      linarith
    have hdiv : 2 * (RNG.hash seed : ℚ) / ((RNG.m : ℚ) - 1) ≤ 2 := by
      rw [div_le_iff₀ hden]
      linarith
    linarith

/-- Witness for the amended C8 at seed 0. -/
theorem rng_hash_scale_in_range_witness :
    (0:ℤ) ≤ 0 ∧
    (RNG.hash 0 = (1103515245 * 0 + 12345) % (2 ^ 31) ∧
     -1 ≤ RNG.scale (RNG.hash 0) ∧ RNG.scale (RNG.hash 0) ≤ 1) :=
  ⟨le_refl 0, rng_hash_scale_in_range 0 (le_refl 0)⟩

/-- `Math.round` of an integer value is that value. -/
theorem jsRound_intCast (k : ℤ) : jsRound (k : ℚ) = (k : ℚ) := by
  have h : ((k:ℚ) + 1/2) = (1/2 : ℚ) + k := by ring
  rw [jsRound, h, Int.floor_add_int]
  norm_num

/-- `Math.round` of a nonnegative value is a natural number. -/
theorem jsRound_nonneg_nat {x : ℚ} (hx : 0 ≤ x) : ∃ n : ℕ, jsRound x = (n : ℚ) := by
  have hf : 0 ≤ ⌊x + 1/2⌋ := Int.floor_nonneg.mpr (by linarith)
  refine ⟨⌊x + 1/2⌋.toNat, ?_⟩
  unfold jsRound
  exact_mod_cast congrArg (fun z : ℤ => (z : ℚ)) (Int.toNat_of_nonneg hf).symm

/-- Auxiliary invariant of all reachable states: the stored score is a
natural number (every write goes through `Math.round` of a nonnegative
value) and the multiplier is at least 1. -/
theorem reachable_invariant (s : State) (h : Reachable s) :
    (∃ n : ℕ, s.score = (n : ℚ)) ∧ 1 ≤ s.multiplier := by
  induction h with
  | init => exact ⟨⟨0, rfl⟩, le_refl 1⟩
  | step s a _ ih =>
    obtain ⟨⟨n, hn⟩, hm⟩ := ih
    cases a with
    | tick =>
      refine ⟨⟨n, hn⟩, ?_⟩
      show (Tick.updateGameStats s _).multiplier ≥ 1
      unfold Tick.updateGameStats
      dsimp only
      split
      · exact le_refl 1
      · exact hm
    | addNotes note =>
      show (∃ k : ℕ, (AddNotes.apply note s).score = (k : ℚ)) ∧
        1 ≤ (AddNotes.apply note s).multiplier
      unfold AddNotes.apply
      split
      · exact ⟨⟨n, hn⟩, hm⟩
      · exact ⟨⟨n, hn⟩, hm⟩
    | keyPress key =>
      constructor
      · show ∃ k : ℕ, KeyPress.calculateScore s _ = (k : ℚ)
        unfold KeyPress.calculateScore
        dsimp only
        apply jsRound_nonneg_nat
        split
        · exact le_max_left 0 _
        · have h1 : (0:ℚ) ≤ s.score := by rw [hn]; positivity
          have h2 : (0:ℚ) ≤ (((s.notes.filter (KeyPress.isNoteHittable key)).length : ℕ) : ℚ) :=
            Nat.cast_nonneg _
          have h3 : (0:ℚ) ≤ s.multiplier := by linarith
          have := mul_nonneg (mul_nonneg h2 h3) (show (0:ℚ) ≤ Constants.SCORE_INCREMENT by norm_num [Constants.SCORE_INCREMENT])
          linarith
      · show 1 ≤ (if 0 < (s.notes.filter (KeyPress.isNoteHittable key)).length
          then KeyPress.calculateMultiplier _ s.multiplier else 1)
        split
        · unfold KeyPress.calculateMultiplier
          split
          · linarith
          · exact hm
        · exact le_refl 1
    | playRandomNote => exact ⟨⟨n, hn⟩, hm⟩

/-- C4: in every state reachable from the initial state by any sequence of
actions, the score is nonnegative. -/
theorem reachable_score_nonneg (s : State) (h : Reachable s) : 0 ≤ s.score := by
  obtain ⟨⟨n, hn⟩, -⟩ := reachable_invariant s h
  rw [hn]
  positivity

/-- Witness for C4 at the initial state. -/
theorem reachable_score_nonneg_witness : 0 ≤ initialState.score :=
  reachable_score_nonneg initialState Reachable.init

/-- C2: in a reachable state, a key press with zero hittable notes yields
`score = max 0 (score - SCORE_DECREMENT)`, `consecutiveHits = 0`,
`multiplier = 1`, and `shouldPlayRandomNote = true`. -/
theorem keyPress_zero_hittable (key : Key) (s : State) (hr : Reachable s)
    (h0 : hittableCount key s = 0) :
    (KeyPress.apply key s).score = max 0 (s.score - Constants.SCORE_DECREMENT) ∧
    (KeyPress.apply key s).consecutiveHits = 0 ∧
    (KeyPress.apply key s).multiplier = 1 ∧
    (KeyPress.apply key s).shouldPlayRandomNote = true := by
  obtain ⟨⟨n, hn⟩, -⟩ := reachable_invariant s hr
  unfold hittableCount at h0
  refine ⟨?_, ?_, ?_, ?_⟩
  · show KeyPress.calculateScore s _ = _
    unfold KeyPress.calculateScore
    rw [h0]
    dsimp only
    rw [if_pos rfl, hn]
    have hmax : max 0 ((n : ℚ) - Constants.SCORE_DECREMENT)
        = (((max 0 (n - 1) : ℤ)) : ℚ) := by
      rw [Int.cast_max]
      push_cast
      norm_num [Constants.SCORE_DECREMENT]
    rw [hmax, jsRound_intCast]
  · show (if 0 < (s.notes.filter (KeyPress.isNoteHittable key)).length
      then s.consecutiveHits + 1 else 0) = 0
    simp [h0]
  · show (if 0 < (s.notes.filter (KeyPress.isNoteHittable key)).length
      then KeyPress.calculateMultiplier _ s.multiplier else 1) = 1
    simp [h0]
  · show ((s.notes.filter (KeyPress.isNoteHittable key)).length == 0) = true
    simp [h0]

/-- Witness for C2 at the initial state (no notes, hence nothing hittable). -/
theorem keyPress_zero_hittable_witness :
    hittableCount Key.KeyH initialState = 0 ∧
    ((KeyPress.apply Key.KeyH initialState).score
        = max 0 (initialState.score - Constants.SCORE_DECREMENT) ∧
     (KeyPress.apply Key.KeyH initialState).consecutiveHits = 0 ∧
     (KeyPress.apply Key.KeyH initialState).multiplier = 1 ∧
     (KeyPress.apply Key.KeyH initialState).shouldPlayRandomNote = true) :=
  ⟨rfl, keyPress_zero_hittable Key.KeyH initialState Reachable.init rfl⟩

/-- An action produces no miss at `s`: a tick counts no missed note and a
key press hits at least one note; `AddNotes` and `PlayRandomNote` never miss. -/
def actionOk : Action → State → Bool
  | .tick, s => missedCount s == 0
  | .keyPress key, s => decide (0 < hittableCount key s)
  | .addNotes _, _ => true
  | .playRandomNote, _ => true

/-- A trace of actions from a state in which no action produces a miss
(every key press is successful and no tick counts a missed note). -/
def goodTrace : List Action → State → Bool
  | [], _ => true
  | a :: rest, s => actionOk a s && goodTrace rest (reduceState s a)

/-- Left fold of the reducer over an action list. -/
def applyActions (as : List Action) (s : State) : State := as.foldl reduceState s

/-- The number of `KeyPress` actions in an action list. -/
def numPresses (as : List Action) : ℕ :=
  (as.filter fun a => match a with | .keyPress _ => true | _ => false).length

theorem applyActions_nil (s : State) : applyActions [] s = s := rfl

theorem applyActions_cons (a : Action) (as : List Action) (s : State) :
    applyActions (a :: as) s = applyActions as (reduceState s a) := rfl

theorem applyActions_append (l1 l2 : List Action) (s : State) :
    applyActions (l1 ++ l2) s = applyActions l2 (applyActions l1 s) :=
  List.foldl_append _ _ _ _

theorem numPresses_cons (a : Action) (as : List Action) :
    numPresses (a :: as)
      = (match a with | .keyPress _ => 1 | _ => 0) + numPresses as := by
  cases a <;> simp [numPresses, List.filter, Nat.add_comm]

theorem goodTrace_append (l1 l2 : List Action) (s : State) :
    goodTrace (l1 ++ l2) s
      = (goodTrace l1 s && goodTrace l2 (applyActions l1 s)) := by
  induction l1 generalizing s with
  | nil => simp [goodTrace, applyActions_nil]
  | cons a rest ih =>
      simp only [List.cons_append, goodTrace, List.append_eq, ih, applyActions_cons,
        Bool.and_assoc]

/-- A successful key press increments the combo and bumps the multiplier by
1/5 exactly when the new combo is a multiple of 10. -/
theorem keyPress_hit_fields (key : Key) (s : State) (h : 0 < hittableCount key s) :
    (KeyPress.apply key s).consecutiveHits = s.consecutiveHits + 1 ∧
    (KeyPress.apply key s).multiplier =
      (if (s.consecutiveHits + 1) % 10 = 0 then s.multiplier + 1/5 else s.multiplier) := by
  unfold hittableCount at h
  constructor
  · show (if 0 < (s.notes.filter (KeyPress.isNoteHittable key)).length
      then s.consecutiveHits + 1 else 0) = s.consecutiveHits + 1
    rw [if_pos h]
  · show (if 0 < (s.notes.filter (KeyPress.isNoteHittable key)).length
      then KeyPress.calculateMultiplier
        (if (s.notes.filter (KeyPress.isNoteHittable key)).length > 0
          then s.consecutiveHits + 1 else 0) s.multiplier
      else 1) = _
    rw [if_pos h, if_pos h]
    unfold KeyPress.calculateMultiplier
    rfl

/-- A tick that counts no missed note leaves combo and multiplier alone. -/
theorem tick_no_miss_fields (s : State) (h : missedCount s = 0) :
    (Tick.apply s).consecutiveHits = s.consecutiveHits ∧
    (Tick.apply s).multiplier = s.multiplier := by
  unfold missedCount at h
  constructor
  · show (Tick.updateGameStats s _).consecutiveHits = _
    unfold Tick.updateGameStats
    simp [h]
  · show (Tick.updateGameStats s _).multiplier = _
    unfold Tick.updateGameStats
    simp [h]

/-- Adding a note never touches combo or multiplier. -/
theorem addNotes_stats_fields (note : Note) (s : State) :
    (AddNotes.apply note s).consecutiveHits = s.consecutiveHits ∧
    (AddNotes.apply note s).multiplier = s.multiplier := by
  unfold AddNotes.apply
  split <;> exact ⟨rfl, rfl⟩

/-- Combo bookkeeping along a no-miss trace: with at most `10 - consecutiveHits`
key presses, the combo grows by the number of presses and the multiplier gains
1/5 exactly when the combo reaches 10 within the trace. -/
theorem goodTrace_combo (as : List Action) : ∀ s : State,
    goodTrace as s = true →
    s.consecutiveHits + numPresses as ≤ 10 →
    (applyActions as s).consecutiveHits = s.consecutiveHits + numPresses as ∧
    (applyActions as s).multiplier =
      (if s.consecutiveHits + numPresses as = 10 ∧ 0 < numPresses as
       then s.multiplier + 1/5 else s.multiplier) := by
  induction as with
  | nil =>
      intro s _ _
      simp [applyActions_nil, numPresses]
  | cons a rest ih =>
      intro s hg hle
      rw [goodTrace] at hg
      obtain ⟨hok, hrest⟩ := Bool.and_eq_true_iff.mp hg
      rw [applyActions_cons, numPresses_cons]
      cases a with
      | tick =>
          have hmc : missedCount s = 0 := by simpa [actionOk] using hok
          obtain ⟨hch, hmul⟩ := tick_no_miss_fields s hmc
          have := ih (reduceState s Action.tick)
            hrest (by simpa [reduceState, Action.apply, hch] using hle)
          rw [show reduceState s Action.tick = Tick.apply s from rfl, hch, hmul] at this
          simpa using this
      | addNotes note =>
          obtain ⟨hch, hmul⟩ := addNotes_stats_fields note s
          have := ih (reduceState s (Action.addNotes note))
            hrest (by simpa [reduceState, Action.apply, hch] using hle)
          rw [show reduceState s (Action.addNotes note) = AddNotes.apply note s from rfl,
            hch, hmul] at this
          simpa using this
      | playRandomNote =>
          have := ih (reduceState s Action.playRandomNote) hrest (by simpa using hle)
          simpa using this
      | keyPress key =>
          have hhit : 0 < hittableCount key s := by simpa [actionOk] using hok
          obtain ⟨hch, hmul⟩ := keyPress_hit_fields key s hhit
          have hred : reduceState s (Action.keyPress key) = KeyPress.apply key s := rfl
          rw [hred] at hrest
          have hle2 : s.consecutiveHits + (1 + numPresses rest) ≤ 10 := by
            rw [numPresses_cons] at hle
            simpa using hle
          have hle' : (KeyPress.apply key s).consecutiveHits + numPresses rest ≤ 10 := by
            rw [hch]; omega
          obtain ⟨ih1, ih2⟩ := ih (KeyPress.apply key s) hrest hle'
          rw [show (match Action.keyPress key with
              | Action.keyPress _ => 1 | _ => 0) = 1 from rfl, hred]
          constructor
          · rw [ih1, hch]; omega
          · rw [ih2, hch, hmul]
            split_ifs <;> first | (exfalso; omega) | ring1

/-- C3: from a state with no running combo, a trace with exactly ten
successful key presses (each hitting at least one note) and no
miss-producing action in between raises the multiplier by exactly 1/5 (the
rational value of the literal 0.2), and only with the tenth press: along
every prefix containing fewer than ten presses the multiplier is unchanged. -/
theorem combo_ten_hits_increment (s : State) (as : List Action)
    (h0 : s.consecutiveHits = 0)
    (hg : goodTrace as s = true)
    (hp : numPresses as = 10) :
    (applyActions as s).multiplier = s.multiplier + 1/5 ∧
    (∀ l1 l2, as = l1 ++ l2 → numPresses l1 < 10 →
      (applyActions l1 s).multiplier = s.multiplier) := by
  constructor
  · have := (goodTrace_combo as s hg (by omega)).2
    rw [hp, h0] at this
    simpa using this
  · intro l1 l2 hsplit hlt
    have hg1 : goodTrace l1 s = true := by
      rw [hsplit, goodTrace_append] at hg
      exact (Bool.and_eq_true_iff.mp hg).1
    have := (goodTrace_combo l1 s hg1 (by omega)).2
    rw [h0] at this
    rw [this, if_neg (by omega)]

/-- A fresh unhit note at the hit line on column 0 (used to feed the combo). -/
def comboNote : Note := { gameEndNote with id := "c0", y := 350 }

/-- One combo round: schedule a fresh note, then hit it. -/
def comboRound : List Action := [Action.addNotes comboNote, Action.keyPress Key.KeyH]

/-- Ten combo rounds: a no-miss trace with exactly ten successful presses. -/
def comboTrace : List Action := (List.replicate 10 comboRound).flatten

unseal Rat.add Rat.sub Rat.mul Rat.inv in
/-- Witness for C3: running the concrete ten-round trace from the initial
state raises the multiplier from 1 to 1 + 1/5. -/
theorem combo_ten_hits_increment_witness :
    initialState.consecutiveHits = 0 ∧
    goodTrace comboTrace initialState = true ∧
    numPresses comboTrace = 10 ∧
    (applyActions comboTrace initialState).multiplier = initialState.multiplier + 1/5 :=
  ⟨rfl, by decide, by decide,
   (combo_ten_hits_increment initialState comboTrace rfl (by decide) (by decide)).1⟩

/-- Decimal digit characters pass `Char.isDigit`. -/
theorem digitChar_isDigit {n : ℕ} (h : n < 10) : (Nat.digitChar n).isDigit = true := by
  interval_cases n <;> decide

/-- Every character produced by `Nat.toDigitsCore` in base 10 over a list of
digit characters is a digit character. -/
theorem toDigitsCore_isDigit (f : ℕ) : ∀ (n : ℕ) (l : List Char),
    (∀ c ∈ l, c.isDigit = true) →
    ∀ c ∈ Nat.toDigitsCore 10 f n l, c.isDigit = true := by
  induction f with
  | zero => intro n l hl c hc; exact hl c hc
  | succ f ih =>
      intro n l hl c hc
      have hcons : ∀ c' ∈ Nat.digitChar (n % 10) :: l, c'.isDigit = true := by
        intro c' hc'
        rcases List.mem_cons.mp hc' with h | h
        · rw [h]; exact digitChar_isDigit (Nat.mod_lt _ (by norm_num))
        · exact hl c' h
      simp only [Nat.toDigitsCore] at hc
      by_cases hdiv : n / 10 = 0
      · rw [if_pos hdiv] at hc
        exact hcons c hc
      · rw [if_neg hdiv] at hc
        exact ih (n / 10) (Nat.digitChar (n % 10) :: l) hcons c hc

/-- The decimal representation of a natural number is never the sentinel id. -/
theorem nat_repr_ne_gameEndNote (n : ℕ) : Nat.repr n ≠ "gameEndNote" := by
  intro h
  have hall : ∀ c ∈ Nat.toDigits 10 n, c.isDigit = true :=
    toDigitsCore_isDigit (n + 1) n [] (by intro c hc; cases hc)
  have hdata : (Nat.repr n).data = Nat.toDigits 10 n := rfl
  have hg : 'g' ∈ (Nat.repr n).data := by rw [h]; decide
  have := hall 'g' (hdata ▸ hg)
  exact absurd this (by decide)

/-- Chart notes carry decimal row indices as ids, never the sentinel id. -/
theorem chart_note_ids_not_sentinel (rows : List ChartRow) :
    ∀ note ∈ rows.mapIdx fun index row => csvLineToNote row index,
      note.id ≠ "gameEndNote" := by
  intro note hmem
  rw [List.mapIdx_eq_enum_map] at hmem
  obtain ⟨⟨i, row⟩, -, rfl⟩ := List.mem_map.mp hmem
  show Nat.repr i ≠ "gameEndNote"
  exact nat_repr_ne_gameEndNote i

/-- The sentinel note with the id the spec ascribes to it. -/
def endOfGameNote : Note := { gameEndNote with id := "end-of-game" }

/-- C7 counterexample: the terminal sentinel's id is "gameEndNote", not
"end-of-game": the stream of an empty chart holds no note with id
"end-of-game", and `AddNotes.apply` on a note carrying id "end-of-game"
appends it to the note list instead of setting `gameEnd`. -/
theorem sentinel_id_mismatch :
    gameEndNote.id ≠ "end-of-game" ∧
    ((parseCSV []).filter fun n => n.id == "end-of-game") = [] ∧
    (AddNotes.apply endOfGameNote initialState).gameEnd = false ∧
    (AddNotes.apply endOfGameNote initialState).notes = [endOfGameNote] := by
  decide

/-- C7 (amended): the note stream derived from any chart ends with exactly
one terminal sentinel note, whose id is "gameEndNote", emitted after all
chart notes; `AddNotes.apply` on the sentinel sets `gameEnd = true` and
leaves every other state field unchanged. -/
theorem sentinel_terminates_stream (rows : List ChartRow) (s : State) :
    parseCSV rows
      = (rows.mapIdx fun index row => csvLineToNote row index) ++ [gameEndNote] ∧
    (parseCSV rows).getLast? = some gameEndNote ∧
    ((parseCSV rows).filter fun n => n.id == "gameEndNote") = [gameEndNote] ∧
    (AddNotes.apply gameEndNote s).gameEnd = true ∧
    (AddNotes.apply gameEndNote s).notes = s.notes ∧
    (AddNotes.apply gameEndNote s).score = s.score ∧
    (AddNotes.apply gameEndNote s).missedNotes = s.missedNotes ∧
    (AddNotes.apply gameEndNote s).multiplier = s.multiplier ∧
    (AddNotes.apply gameEndNote s).consecutiveHits = s.consecutiveHits ∧
    (AddNotes.apply gameEndNote s).shouldPlayRandomNote = s.shouldPlayRandomNote := by
  refine ⟨rfl, ?_, ?_, ?_, ?_, ?_, ?_, ?_, ?_, ?_⟩
  · exact List.getLast?_concat _
  · show List.filter _ (_ ++ [gameEndNote]) = _
    rw [List.filter_append]
    have hnil : ((rows.mapIdx fun index row => csvLineToNote row index).filter
        fun n => n.id == "gameEndNote") = [] := by
      rw [List.filter_eq_nil_iff]
      intro note hmem
      simpa using chart_note_ids_not_sentinel rows note hmem
    rw [hnil]
    rfl
  · simp [AddNotes.apply, gameEndNote]
  · simp [AddNotes.apply, gameEndNote]
  · simp [AddNotes.apply, gameEndNote]
  · simp [AddNotes.apply, gameEndNote]
  · simp [AddNotes.apply, gameEndNote]
  · simp [AddNotes.apply, gameEndNote]
  · simp [AddNotes.apply, gameEndNote]

end GuitarHero
